import Mathlib

/-!
Verification of the YouTubeVideoDownloader repository's cleanup service,
HTTP file route and downloader wrapper, shallowly embedded from
`src/app/src/file_cleanup.py`, `src/app/src/app.py` and
`src/app/src/youtube_downloader.py`.

Times are modelled in whole seconds as integers; filesystem state is a
listing of directory entries; per-entry fallible system calls
(`os.path.getmtime`/`os.path.getsize` and `os.remove`) are given explicit
failure flags on each entry, and `os.listdir` a failure flag on the
directory, so every exception path of the Python code is represented.
-/

namespace YTDL

/-- One entry of the download directory as the scan observes it:
`isFile` is the result of `os.path.isfile`; `mtime` the last-modified
time in seconds; `size` the size in bytes; `statFails` models
`os.path.getmtime`/`os.path.getsize` raising `OSError` on this entry
(e.g. a race with concurrent deletion); `removeFails` models `os.remove`
raising `OSError`. -/
structure DirEntry where
  name : String
  isFile : Bool
  mtime : Int
  size : Nat
  statFails : Bool
  removeFails : Bool
deriving DecidableEq, Repr

/-- The download directory: `dirExists` is `os.path.exists(download_path)`,
`listFails` models `os.listdir` raising, `entries` the listing. -/
structure Dir where
  dirExists : Bool
  listFails : Bool
  entries : List DirEntry
deriving DecidableEq, Repr

/-- The `for filename in os.listdir(...)` loop of
`AEPFileCleanupService.cleanup_old_files` (file_cleanup.py lines 105-127).
Returns (deleted count, remaining entries, whether an exception escaped the
loop into the outer `except`). Non-files are skipped (`continue`); a failing
`os.path.getmtime` raises out of the loop, so the remaining entries are left
unprocessed and the count accumulated so far is kept; a failing `os.remove`
is caught by the inner `except OSError`, the entry survives and the loop
continues. -/
def cleanupScan (now maxAge : Int) : List DirEntry → Nat × List DirEntry × Bool
  | [] => (0, [], false)
  | e :: es =>
    if e.isFile = false then
      let r := cleanupScan now maxAge es
      (r.1, e :: r.2.1, r.2.2)
    else if e.statFails then
      (0, e :: es, true)
    else if maxAge < now - e.mtime then
      if e.removeFails then
        let r := cleanupScan now maxAge es
        (r.1, e :: r.2.1, r.2.2)
      else
        let r := cleanupScan now maxAge es
        (r.1 + 1, r.2.1, r.2.2)
    else
      let r := cleanupScan now maxAge es
      (r.1, e :: r.2.1, r.2.2)

/-- `AEPFileCleanupService.cleanup_old_files` (file_cleanup.py lines 91-137):
returns the number of deleted files together with the directory contents
left behind. A missing directory returns 0 immediately; a failing
`os.listdir` is caught by the outer `except` and the accumulated count (0)
is returned. -/
def cleanup_old_files (d : Dir) (now maxAge : Int) : Nat × List DirEntry :=
  if d.dirExists = false then (0, d.entries)
  else if d.listFails then (0, d.entries)
  else
    let r := cleanupScan now maxAge d.entries
    (r.1, r.2.1)

/-- The summation loop of `get_directory_size` (file_cleanup.py lines
151-157): `os.path.getsize` raising aborts the loop via the `except`, which
returns the total accumulated so far. -/
def sizeScan : List DirEntry → Nat
  | [] => 0
  | e :: es =>
    if e.isFile = false then sizeScan es
    else if e.statFails then 0
    else e.size + sizeScan es

/-- `AEPFileCleanupService.get_directory_size` (file_cleanup.py lines
139-159). -/
def get_directory_size (d : Dir) : Nat :=
  if d.dirExists = false then 0
  else if d.listFails then 0
  else sizeScan d.entries

/-- `AEPFileCleanupService.get_file_count` (file_cleanup.py lines 161-178):
counts the regular files in the listing; a failing `os.listdir` returns 0
via the `except`. -/
def get_file_count (d : Dir) : Nat :=
  if d.dirExists = false then 0
  else if d.listFails then 0
  else (d.entries.filter (fun e => e.isFile)).length

/-- An entry the scan deletes: a regular file strictly older than the
threshold (`file_age > max_age_seconds`, file_cleanup.py line 116). -/
def qualifies (now maxAge : Int) (e : DirEntry) : Bool :=
  e.isFile && decide (maxAge < now - e.mtime)

/-- No per-entry system call of the scan fails on `e`. -/
def entryOk (e : DirEntry) : Prop :=
  e.statFails = false ∧ e.removeFails = false

instance (e : DirEntry) : Decidable (entryOk e) := by
  unfold entryOk; infer_instance

/-- A file the cycle actually removes: it qualifies and its `os.remove`
succeeds. -/
def removedBy (now maxAge : Int) (e : DirEntry) : Bool :=
  qualifies now maxAge e && !e.removeFails

/-! ## Lifecycle model

`AEPFileCleanupService._cleanup_loop` (file_cleanup.py lines 78-89) is a
thread running `while self._running: try cleanup except log; time.sleep(interval)`.
We model the thread as a discrete-time machine: one tick is one second of
its execution. `time.sleep(cleanup_interval)` occupies `interval` ticks
during which the flag is NOT consulted (a plain `time.sleep` cannot be
interrupted by setting `self._running`). -/

/-- Control position of one `_cleanup_loop` thread. `checkFlag` is the
`while self._running` test; `runCycle` is the guarded `cleanup_old_files()`
call; `sleeping n` means `n` more ticks of `time.sleep` remain; `exited`
means the thread function returned. -/
inductive LoopPhase where
  | checkFlag
  | runCycle
  | sleeping (n : Nat)
  | exited
deriving DecidableEq, Repr

/-- One tick of a `_cleanup_loop` thread, given the current value of the
shared `_running` flag and whether `cleanup_old_files` raises during this
cycle. The `try/except` of lines 83-86 makes a raising cycle proceed to the
sleep exactly like a normal one, and the sleep ticks down without reading
`running`. -/
def loopStep (interval : Nat) (running cycleRaises : Bool) :
    LoopPhase → LoopPhase
  | .checkFlag => if running then .runCycle else .exited
  | .runCycle => if cycleRaises then .sleeping interval else .sleeping interval
  | .sleeping (n + 1) => .sleeping n
  | .sleeping 0 => .checkFlag
  | .exited => .exited

/-- Whole-service state: the shared `_running` flag and the phases of every
loop thread ever launched by `start` (exited threads stay in the list with
phase `exited`). -/
structure Sys where
  running : Bool
  threads : List LoopPhase
deriving DecidableEq, Repr

/-- A freshly constructed `AEPFileCleanupService`: `_running = False`, no
thread. -/
def initSys : Sys := ⟨false, []⟩

/-- `AEPFileCleanupService.start` (file_cleanup.py lines 50-67): if
`_running` is already set it logs a warning and returns; otherwise it sets
the flag and launches a new `_cleanup_loop` thread. -/
def startSvc (s : Sys) : Sys :=
  if s.running then s
  else { running := true, threads := LoopPhase.checkFlag :: s.threads }

/-- `AEPFileCleanupService.stop` (file_cleanup.py lines 69-76): clears
`_running` and then joins the thread with a hard-coded 5 second timeout.
The join only waits; it does not change the thread, so in the state model
`stop` just clears the flag. -/
def stopSvc (s : Sys) : Sys := { s with running := false }

/-- `threading.Thread.join(timeout=5)` (file_cleanup.py line 75) blocks for
the lesser of 5 seconds and the time the thread still needs to exit. -/
def stopJoinTicks (exitTicks : Nat) : Nat := Nat.min 5 exitTicks

/-- Update the i-th element of a list in place. -/
def modifyIdx {α : Type} : List α → Nat → (α → α) → List α
  | [], _, _ => []
  | a :: l, 0, f => f a :: l
  | a :: l, n + 1, f => a :: modifyIdx l n f

/-- An interleaving event: a `start()` call, a `stop()` call, or one tick of
the `i`-th loop thread (with `raises` telling whether its cycle raises if it
is at `runCycle`). -/
inductive Ev where
  | startEv
  | stopEv
  | tick (i : Nat) (raises : Bool)
deriving DecidableEq, Repr

/-- Apply one event to the service state. -/
def applyEv (interval : Nat) (s : Sys) : Ev → Sys
  | .startEv => startSvc s
  | .stopEv => stopSvc s
  | .tick i raises =>
    { s with threads := modifyIdx s.threads i (loopStep interval s.running raises) }

/-- Run a sequence of interleaving events from a state. -/
def runEvents (interval : Nat) (evs : List Ev) (s : Sys) : Sys :=
  evs.foldl (applyEv interval) s

/-- Number of loop threads that have been launched and have not exited. -/
def activeCount (s : Sys) : Nat :=
  (s.threads.filter (fun p => p ≠ LoopPhase.exited)).length

/-! ## HTTP file route

`download_file` in app.py (lines 176-223) resolves the requested name
against `DOWNLOAD_FOLDER` with `os.path.join`, normalises with
`os.path.abspath`, and guards with the *string* test
`filepath.startswith(download_folder)`. Absolute paths are modelled as
lists of components; the decoded request name as a possibly-absolute
component list (the slash-separated pieces of the decoded string). -/

/-- One step of `os.path.abspath` normalisation over the components of a
path: empty and `.` components vanish, `..` pops the last component (at the
root it stays at the root), anything else is appended. -/
def normStep (acc : List String) (c : String) : List String :=
  if c = "" then acc
  else if c = "." then acc
  else if c = ".." then acc.dropLast
  else acc ++ [c]

/-- `os.path.abspath` on an already-rooted component list. -/
def normalizePath (comps : List String) : List String :=
  comps.foldl normStep []

/-- Render components back to the path string the Python code compares with
`str.startswith` (a rooted path `/a/b` renders as `"/a" ++ "/b"`). -/
def renderPath (comps : List String) : String :=
  comps.foldl (fun s c => s ++ "/" ++ c) ""

/-- The decoded `filename` route argument, split at slashes: `isAbs` records
a leading slash (which makes `os.path.join` discard the base directory). -/
structure ReqPath where
  isAbs : Bool
  comps : List String
deriving DecidableEq, Repr

/-- Character-list prefix test, structurally recursive so that concrete
instances evaluate. -/
def charsPrefix : List Char → List Char → Bool
  | [], _ => true
  | _ :: _, [] => false
  | a :: as, b :: bs => if a = b then charsPrefix as bs else false

/-- Python's `filepath.startswith(download_folder)` (app.py line 199): a
plain string-prefix test. -/
def startswith (s pre : String) : Bool :=
  charsPrefix pre.data s.data

/-- `os.path.join(DOWNLOAD_FOLDER, decoded_filename)` (app.py line 193): an
absolute second argument replaces the base entirely. -/
def joinPath (folder : List String) (name : ReqPath) : List String :=
  if name.isAbs then name.comps else folder ++ name.comps

/-- The absolute path the handler serves from: `os.path.abspath` of the
join (app.py line 196). -/
def resolvedPath (folder : List String) (name : ReqPath) : List String :=
  normalizePath (joinPath folder name)

/-- Outcome of the `/api/file/<path:filename>` handler: HTTP 403, HTTP 404,
or `send_file` on the resolved path. -/
inductive FileResp where
  | forbidden
  | notFound
  | served (p : List String)
deriving DecidableEq, Repr

/-- `download_file` in app.py (lines 176-223). `fexists` is the
`os.path.exists` oracle. The escape guard is the string-prefix test of line
199; only then is existence checked (line 205); otherwise the file is sent. -/
def download_file (folder : List String) (name : ReqPath)
    (fexists : List String → Bool) : FileResp :=
  let filepath := normalizePath (joinPath folder name)
  let downloadFolder := normalizePath folder
  if startswith (renderPath filepath) (renderPath downloadFolder) = false then
    .forbidden
  else if fexists filepath = false then
    .notFound
  else
    .served filepath

/-- Containment in the download directory, as a claim about real paths:
the directory's components are a prefix of the file's components. -/
def insideDir (folder p : List String) : Prop :=
  normalizePath folder <+: p

instance (folder p : List String) : Decidable (insideDir folder p) := by
  unfold insideDir; infer_instance

/-! ## Downloader wrapper

`AEPYouTubeDownloader.download_video` (youtube_downloader.py lines
104-185). The yt-dlp collaborator (the `with yt_dlp.YoutubeDL(...)` block:
`extract_info` plus `prepare_filename`) is a parameter returning either the
video info, a `DownloadError`, or any other exception. -/

/-- The `url` argument as Python receives it: a `str`, or any non-string
object (which fails `isinstance(url, str)`). -/
inductive UrlArg where
  | pyStr (s : String)
  | nonString
deriving DecidableEq, Repr

/-- What the yt-dlp block yields: extracted info (the `title` field of the
info dict, possibly absent, and the full path from `prepare_filename`), a
`yt_dlp.utils.DownloadError`, or another exception. -/
inductive DlOutcome where
  | ok (title : Option String) (preparedFilename : String)
  | downloadError (msg : String)
  | otherError (msg : String)
deriving DecidableEq, Repr

/-- The dictionary `download_video` returns; absent keys are `none`. -/
structure DlDict where
  success : Bool
  error : Option String
  filename : Option String
  filepath : Option String
  title : Option String
deriving DecidableEq, Repr

/-- Scan of a path's characters keeping the segment after the last slash. -/
def basenameChars : List Char → List Char → List Char
  | [], acc => acc.reverse
  | c :: cs, acc =>
    if c = '/' then basenameChars cs []
    else basenameChars cs (c :: acc)

/-- `os.path.basename` (youtube_downloader.py line 169): the part after the
last slash. -/
def pyBasename (s : String) : String :=
  String.mk (basenameChars s.data [])

/-- `AEPYouTubeDownloader.download_video` (youtube_downloader.py lines
104-185). An empty or non-string url fails validation (line 121); a
`DownloadError` and any other exception are caught by the two `except`
clauses (lines 174-185). -/
def download_video (url : UrlArg) (formatId : String)
    (collab : String → String → DlOutcome) : DlDict :=
  match url with
  | .nonString => ⟨false, some "URL inválida", none, none, none⟩
  | .pyStr s =>
    if s = "" then ⟨false, some "URL inválida", none, none, none⟩
    else
      match collab s formatId with
      | .ok title preparedFilename =>
        ⟨true, none, some (pyBasename preparedFilename),
          some preparedFilename, some (title.getD "Sin título")⟩
      | .downloadError m =>
        ⟨false, some ("Error al descargar el video: " ++ m), none, none, none⟩
      | .otherError m =>
        ⟨false, some ("Error inesperado: " ++ m), none, none, none⟩

/-! ## Concrete fixtures used by witnesses and counterexamples -/

/-- `a.mp4` of the spec scenario: age 10 s at `now = 4000`. -/
def entryA : DirEntry := ⟨"a.mp4", true, 3990, 5, false, false⟩

/-- `b.mp4` of the spec scenario: age 3700 s at `now = 4000`. -/
def entryB : DirEntry := ⟨"b.mp4", true, 300, 7, false, false⟩

/-- An over-age file whose `os.path.getmtime` raises. -/
def entryStatFail : DirEntry := ⟨"s.mp4", true, 300, 1, true, false⟩

/-- An over-age, deletable file listed after the failing one. -/
def entryAfter : DirEntry := ⟨"c.mp4", true, 300, 1, false, false⟩

/-- An over-age file whose `os.remove` raises. -/
def entryRemoveFail : DirEntry := ⟨"r.mp4", true, 300, 1, false, true⟩

/-- Files of 10, 20 and 30 bytes for the introspection scenario. -/
def entry10 : DirEntry := ⟨"f10", true, 3990, 10, false, false⟩

/-- See `entry10`. -/
def entry20 : DirEntry := ⟨"f20", true, 3990, 20, false, false⟩

/-- See `entry10`. -/
def entry30 : DirEntry := ⟨"f30", true, 3990, 30, false, false⟩

/-- The interleaving refuting "at most one loop ever active": start; the
loop reaches its 300 s sleep; stop (join waits 5 ticks of the sleeping
thread, then times out); start again; the old thread finishes its sleep,
re-reads the flag — now true — and enters another cycle. -/
def raceTrace : List Ev :=
  [Ev.startEv, Ev.tick 0 false, Ev.tick 0 false, Ev.stopEv] ++
    List.replicate 5 (Ev.tick 0 false) ++ [Ev.startEv] ++
    List.replicate 297 (Ev.tick 1 false)

/-- A collaborator whose download completes with title `T` and prepared
filename `/d/v.mp4`. -/
def okCollab : String → String → DlOutcome :=
  fun _ _ => DlOutcome.ok (some "T") "/d/v.mp4"

/-! ## Helper lemmas -/

/-- On a listing without per-entry failures, the scan deletes exactly the
qualifying files and keeps everything else, in order. -/
theorem cleanupScan_no_failures (now maxAge : Int) (es : List DirEntry)
    (h : ∀ e ∈ es, entryOk e) :
    cleanupScan now maxAge es =
      ((es.filter (qualifies now maxAge)).length,
       es.filter (fun e => !qualifies now maxAge e), false) := by
  induction es with
  | nil => simp [cleanupScan]
  | cons e es ih =>
    have he : entryOk e := h e (List.mem_cons_self e es)
    have hes : ∀ x ∈ es, entryOk x := fun x hx => h x (List.mem_cons_of_mem e hx)
    obtain ⟨hstat, hrem⟩ := he
    by_cases hf : e.isFile = false
    · simp [cleanupScan, hf, ih hes, qualifies, List.filter_cons, hf]
    · have hf' : e.isFile = true := by
        cases hef : e.isFile
        · exact absurd hef hf
        · rfl
      by_cases hage : maxAge < now - e.mtime
      · simp [cleanupScan, hf', hstat, hrem, hage, ih hes, qualifies,
          List.filter_cons]
      · simp [cleanupScan, hf', hstat, hage, ih hes, qualifies,
          List.filter_cons]

/-- On a listing whose files all have readable metadata, the scan removes
exactly the qualifying files whose deletion succeeds, and continues past
every failed deletion. -/
theorem cleanupScan_remove_failures (now maxAge : Int) (es : List DirEntry)
    (h : ∀ e ∈ es, e.isFile = true → e.statFails = false) :
    cleanupScan now maxAge es =
      ((es.filter (removedBy now maxAge)).length,
       es.filter (fun e => !removedBy now maxAge e), false) := by
  induction es with
  | nil => simp [cleanupScan]
  | cons e es ih =>
    have hes : ∀ x ∈ es, x.isFile = true → x.statFails = false :=
      fun x hx => h x (List.mem_cons_of_mem e hx)
    by_cases hf : e.isFile = false
    · simp [cleanupScan, hf, ih hes, removedBy, qualifies, List.filter_cons]
    · have hf' : e.isFile = true := by
        cases hef : e.isFile
        · exact absurd hef hf
        · rfl
      have hstat : e.statFails = false := h e (List.mem_cons_self e es) hf'
      by_cases hage : maxAge < now - e.mtime
      · by_cases hrem : e.removeFails = true
        · simp [cleanupScan, hf', hstat, hage, hrem, ih hes, removedBy,
            qualifies, List.filter_cons]
        · have hrem' : e.removeFails = false := by
            cases her : e.removeFails
            · rfl
            · exact absurd her hrem
          simp [cleanupScan, hf', hstat, hage, hrem', ih hes, removedBy,
            qualifies, List.filter_cons]
      · simp [cleanupScan, hf', hstat, hage, ih hes, removedBy, qualifies,
          List.filter_cons]

/-- A file whose metadata read raises aborts the scan: the entries before
it are processed normally, it and everything after survive untouched, and
the exception reaches the cycle-level handler. -/
theorem cleanupScan_stat_failure_aborts (now maxAge : Int)
    (es1 es2 : List DirEntry) (e : DirEntry)
    (h1 : ∀ x ∈ es1, x.isFile = true → x.statFails = false)
    (hf : e.isFile = true) (hs : e.statFails = true) :
    cleanupScan now maxAge (es1 ++ e :: es2) =
      ((cleanupScan now maxAge es1).1,
       (cleanupScan now maxAge es1).2.1 ++ e :: es2, true) := by
  induction es1 with
  | nil => simp [cleanupScan, hf, hs]
  | cons x es1 ih =>
    have hxs : ∀ y ∈ es1, y.isFile = true → y.statFails = false :=
      fun y hy => h1 y (List.mem_cons_of_mem x hy)
    have ih' := ih hxs
    by_cases hxf : x.isFile = false
    · simp [cleanupScan, hxf, ih']
    · have hxf' : x.isFile = true := by
        cases hex : x.isFile
        · exact absurd hex hxf
        · rfl
      have hxstat : x.statFails = false := h1 x (List.mem_cons_self x es1) hxf'
      by_cases hage : maxAge < now - x.mtime
      · by_cases hrem : x.removeFails = true
        · simp [cleanupScan, hxf', hxstat, hage, hrem, ih']
        · have hrem' : x.removeFails = false := by
            cases her : x.removeFails
            · rfl
            · exact absurd her hrem
          simp [cleanupScan, hxf', hxstat, hage, hrem', ih']
      · simp [cleanupScan, hxf', hxstat, hage, ih']

/-! ## Claim theorems -/

/-- C1: in a cleanup cycle over a directory whose per-entry system calls
succeed, a regular file is deleted iff its age `now - mtime` is strictly
greater than `max_age_seconds`; a file exactly at the threshold and every
subdirectory entry are retained, and the cycle returns the number of files
deleted. -/
theorem cleanup_deletes_iff_strictly_older (d : Dir) (now maxAge : Int)
    (hex : d.dirExists = true) (hls : d.listFails = false)
    (hok : ∀ e ∈ d.entries, entryOk e) :
    cleanup_old_files d now maxAge =
      ((d.entries.filter (qualifies now maxAge)).length,
       d.entries.filter (fun e => !qualifies now maxAge e)) ∧
    (∀ e ∈ d.entries, e.isFile = false →
      e ∈ (cleanup_old_files d now maxAge).2) ∧
    (∀ e ∈ d.entries, now - e.mtime = maxAge →
      e ∈ (cleanup_old_files d now maxAge).2) := by
  have hmain : cleanup_old_files d now maxAge =
      ((d.entries.filter (qualifies now maxAge)).length,
       d.entries.filter (fun e => !qualifies now maxAge e)) := by
    simp [cleanup_old_files, hex, hls, cleanupScan_no_failures now maxAge d.entries hok]
  refine ⟨hmain, ?_, ?_⟩
  · intro e he hf
    rw [hmain]
    simp only [List.mem_filter]
    exact ⟨he, by simp [qualifies, hf]⟩
  · intro e he hage
    rw [hmain]
    simp only [List.mem_filter]
    refine ⟨he, ?_⟩
    simp [qualifies, hage]

/-- Witness for C1, the spec's concrete scenario: files of ages 10 s and
3700 s against a 3600 s threshold — the cycle returns 1 and removes only
the older file. -/
theorem cleanup_deletes_iff_strictly_older_witness :
    cleanup_old_files ⟨true, false, [entryA, entryB]⟩ 4000 3600 =
      (1, [entryA]) := by
  have h := cleanup_deletes_iff_strictly_older ⟨true, false, [entryA, entryB]⟩
    4000 3600 rfl rfl (by decide)
  rw [h.1]
  decide

/-- C2 counterexample: with an over-age file whose metadata read fails
listed first and a healthy over-age file after it, the cycle returns 0 and
leaves both files in place — the claim's "continues processing all
remaining entries" would require the second file to be removed and the
cycle to return 1. -/
theorem cleanup_metadata_failure_stops_scan :
    cleanup_old_files ⟨true, false, [entryStatFail, entryAfter]⟩ 4000 3600 =
      (0, [entryStatFail, entryAfter]) ∧
    ¬ cleanup_old_files ⟨true, false, [entryStatFail, entryAfter]⟩ 4000 3600 =
      (1, [entryStatFail]) := by
  decide

/-- C2 amended: a failed deletion is swallowed per entry and the scan
continues through all remaining entries, returning the count of files
successfully removed; a failed metadata read is caught by the cycle-level
handler — the cycle still returns, without propagating, the count of files
removed before the failure — but the remaining entries of that cycle are
left unprocessed. -/
theorem cleanup_per_entry_failure_policy (now maxAge : Int) :
    (∀ es : List DirEntry, (∀ e ∈ es, e.isFile = true → e.statFails = false) →
      cleanup_old_files ⟨true, false, es⟩ now maxAge =
        ((es.filter (removedBy now maxAge)).length,
         es.filter (fun e => !removedBy now maxAge e))) ∧
    (∀ (es1 es2 : List DirEntry) (e : DirEntry),
      (∀ x ∈ es1, x.isFile = true → x.statFails = false) →
      e.isFile = true → e.statFails = true →
      cleanup_old_files ⟨true, false, es1 ++ e :: es2⟩ now maxAge =
        ((cleanupScan now maxAge es1).1,
         (cleanupScan now maxAge es1).2.1 ++ e :: es2)) := by
  constructor
  · intro es h
    simp [cleanup_old_files, cleanupScan_remove_failures now maxAge es h]
  · intro es1 es2 e h1 hf hs
    simp [cleanup_old_files,
      cleanupScan_stat_failure_aborts now maxAge es1 es2 e h1 hf hs]

/-- Witness for the amended C2: a failing deletion followed by a healthy
over-age file — the cycle skips the first and still removes the second,
returning 1; and a metadata failure after one successful deletion returns
that count 1 with the tail untouched. -/
theorem cleanup_per_entry_failure_policy_witness :
    cleanup_old_files ⟨true, false, [entryRemoveFail, entryAfter]⟩ 4000 3600 =
      (1, [entryRemoveFail]) ∧
    cleanup_old_files ⟨true, false, [entryB] ++ entryStatFail :: [entryAfter]⟩
      4000 3600 = (1, [entryStatFail, entryAfter]) := by
  have h := cleanup_per_entry_failure_policy 4000 3600
  constructor
  · rw [h.1 [entryRemoveFail, entryAfter] (by decide)]
    decide
  · rw [h.2 [entryB] [entryAfter] entryStatFail (by decide) (by decide) (by decide)]
    decide

/-- With the stop signal already given, a sleeping loop thread ticks its
whole sleep down before it looks at anything. -/
theorem loopStep_sleeps_through (interval : Nat) (r : Bool) (n : Nat) :
    (loopStep interval false r)^[n] (LoopPhase.sleeping n) =
      LoopPhase.sleeping 0 := by
  induction n with
  | zero => rfl
  | succ n ih =>
    rw [Function.iterate_succ_apply]
    exact ih

/-- C3 counterexample: the loop's sleep is a plain `time.sleep` that never
consults the stop flag. With the flag already cleared and the claimed
scenario's 300 s interval, the thread is still asleep 6 ticks after the
signal — and still not exited 100 ticks after it — where an interruptible
sleep would have let the loop exit within about the 5 s stop timeout. -/
theorem cleanup_sleep_ignores_stop_signal :
    (loopStep 300 false false)^[6] (LoopPhase.sleeping 300) =
      LoopPhase.sleeping 294 ∧
    (loopStep 300 false false)^[100] (LoopPhase.sleeping 300) ≠
      LoopPhase.exited := by
  decide

/-- C3 amended: the loop checks the stop flag only between iterations, so
after `stop` clears the flag a thread with `n` sleep ticks left exits in
exactly `n + 2` ticks (bounded by one full interval plus the flag check,
never less); `stop` itself still returns within its hard-coded 5 second
`join` timeout, and the service is Stopped (`_running = False`) when it
returns. -/
theorem cleanup_stop_exit_latency (interval n : Nat) (r : Bool) (s : Sys) :
    (loopStep interval false r)^[n + 2] (LoopPhase.sleeping n) =
      LoopPhase.exited ∧
    stopJoinTicks (n + 2) ≤ 5 ∧
    (stopSvc s).running = false := by
  refine ⟨?_, Nat.min_le_left _ _, rfl⟩
  have h2 : n + 2 = 2 + n := by omega
  rw [h2, Function.iterate_add_apply, loopStep_sleeps_through]
  rfl

set_option maxRecDepth 4000 in
/-- C4 counterexample: `stop` during the 300 s sleep returns after its 5 s
join timeout with the old loop thread still alive; a following `start` sees
`_running == False`, launches a second thread, and the old thread — finding
the flag true again after its sleep — re-enters a cleanup cycle: two loops
are active on one service instance. -/
theorem start_after_timedout_stop_two_active_loops :
    activeCount (runEvents 300 raceTrace initSys) = 2 ∧
    (runEvents 300 raceTrace initSys).threads =
      [LoopPhase.checkFlag, LoopPhase.runCycle] := by
  decide

/-- C4 amended: `start` while the service is Running is a warning no-op
that launches no second loop (two consecutive `start` calls from the
initial state leave exactly one thread); the "at most one loop ever"
invariant, however, only holds as long as `start` is not called after a
`stop` whose bounded join returned while the loop was still sleeping. -/
theorem start_idempotent_while_running (interval : Nat) (s : Sys)
    (h : s.running = true) :
    startSvc s = s ∧
    runEvents interval [Ev.startEv, Ev.startEv] initSys =
      ⟨true, [LoopPhase.checkFlag]⟩ := by
  constructor
  · simp [startSvc, h]
  · rfl

/-- Witness for the amended C4 at a concrete Running state. -/
theorem start_idempotent_while_running_witness :
    startSvc ⟨true, [LoopPhase.sleeping 42]⟩ =
      (⟨true, [LoopPhase.sleeping 42]⟩ : Sys) :=
  (start_idempotent_while_running 300 ⟨true, [LoopPhase.sleeping 42]⟩ rfl).1

/-- While the flag stays true, one tick never exits the loop, whatever the
cycle does. -/
theorem loopStep_true_ne_exited (interval : Nat) (r : Bool) (p : LoopPhase)
    (h : p ≠ LoopPhase.exited) :
    loopStep interval true r p ≠ LoopPhase.exited := by
  cases p with
  | checkFlag => simp [loopStep]
  | runCycle => simp [loopStep]
  | sleeping n => cases n <;> simp [loopStep]
  | exited => exact absurd rfl h

/-- C5: whatever cycles raise, the loop never exits while the Running flag
holds — the `try/except` turns a raising cycle into a logged no-op and the
loop proceeds to its sleep; the only exit is the `while` test seeing the
flag cleared by `stop`. -/
theorem cleanup_loop_never_exits_on_cycle_errors (interval : Nat)
    (raises : List Bool) (p : LoopPhase) (h : p ≠ LoopPhase.exited) :
    raises.foldl (fun q r => loopStep interval true r q) p ≠
      LoopPhase.exited ∧
    (∀ r, loopStep interval false r LoopPhase.checkFlag = LoopPhase.exited) := by
  constructor
  · induction raises generalizing p with
    | nil => exact h
    | cons r rs ih => exact ih _ (loopStep_true_ne_exited interval r p h)
  · intro r
    rfl

/-- Witness for C5: three cycles, the first and last raising, starting at
the `while` test — the thread is still alive. -/
theorem cleanup_loop_never_exits_on_cycle_errors_witness :
    [true, false, true].foldl (fun q r => loopStep 300 true r q)
      LoopPhase.checkFlag ≠ LoopPhase.exited :=
  (cleanup_loop_never_exits_on_cycle_errors 300 [true, false, true]
    LoopPhase.checkFlag (by decide)).1

/-- C6 counterexample: the guard of app.py line 199 is a *string* prefix
test, so the request `../downloads2/secret.txt` resolves to the sibling
directory `/srv/downloads2` — outside the download directory — yet passes
the check (its rendered path extends the string `/srv/downloads`) and the
file is served. -/
theorem download_file_serves_sibling_directory :
    download_file ["srv", "downloads"]
        ⟨false, ["..", "downloads2", "secret.txt"]⟩ (fun _ => true) =
      FileResp.served ["srv", "downloads2", "secret.txt"] ∧
    ¬ insideDir ["srv", "downloads"] ["srv", "downloads2", "secret.txt"] := by
  decide

/-- C6 amended: the handler returns 403 exactly when the download
directory's absolute path *string* is not a prefix of the resolved path's
string, 404 exactly when that string test passes but the file is absent,
and otherwise serves the resolved path — so a served file always passes the
string-prefix test but need not lie inside the directory. -/
theorem download_file_string_prefix_policy (folder : List String)
    (name : ReqPath) (fexists : List String → Bool) :
    (download_file folder name fexists = FileResp.forbidden ↔
      startswith (renderPath (resolvedPath folder name))
        (renderPath (normalizePath folder)) = false) ∧
    (download_file folder name fexists = FileResp.notFound ↔
      (startswith (renderPath (resolvedPath folder name))
        (renderPath (normalizePath folder)) = true ∧
       fexists (resolvedPath folder name) = false)) ∧
    (∀ p, download_file folder name fexists = FileResp.served p →
      p = resolvedPath folder name ∧ fexists p = true ∧
      startswith (renderPath p) (renderPath (normalizePath folder)) = true) := by
  by_cases hpre : startswith (renderPath (normalizePath (joinPath folder name)))
      (renderPath (normalizePath folder)) = false
  · simp [download_file, resolvedPath, hpre]
  · have hpre' : startswith (renderPath (normalizePath (joinPath folder name)))
        (renderPath (normalizePath folder)) = true := by
      simpa using hpre
    by_cases hex : fexists (normalizePath (joinPath folder name)) = false
    · simp [download_file, resolvedPath, hpre', hex]
    · have hex' : fexists (normalizePath (joinPath folder name)) = true := by
        simpa using hex
      refine ⟨?_, ?_, ?_⟩
      · simp [download_file, resolvedPath, hpre', hex']
      · simp [download_file, resolvedPath, hpre', hex']
      · intro p hp
        simp only [download_file, resolvedPath, hpre', hex'] at hp
        simp only [Bool.true_eq_false, if_false] at hp
        cases hp
        exact ⟨rfl, hex', hpre'⟩

/-- Witness for the amended C6: an existing file requested by plain name is
served from the directory, and a missing one yields 404. -/
theorem download_file_string_prefix_policy_witness :
    download_file ["srv", "downloads"] ⟨false, ["a.mp4"]⟩ (fun _ => false) =
      FileResp.notFound := by
  have h := (download_file_string_prefix_policy ["srv", "downloads"]
    ⟨false, ["a.mp4"]⟩ (fun _ => false)).2.1
  exact h.mpr (by decide)

/-- C7: `stop` always leaves `_running = False` (state Stopped), whether or
not the join finished in time; on an already-stopped service it changes
nothing — in particular `stop` before any `start` is a no-op on the initial
state — and the join waits at most its 5 second timeout. -/
theorem stop_always_stops (s : Sys) :
    (stopSvc s).running = false ∧
    (s.running = false → stopSvc s = s) ∧
    stopSvc initSys = initSys ∧
    (∀ t, stopJoinTicks t ≤ 5) := by
  refine ⟨rfl, ?_, rfl, fun t => Nat.min_le_left _ _⟩
  intro h
  cases s with
  | mk r th =>
    cases r
    · rfl
    · exact absurd h (by simp)

/-- Witness for C7 on the freshly constructed service. -/
theorem stop_always_stops_witness :
    (stopSvc initSys).running = false ∧ stopSvc initSys = initSys := by
  have h := stop_always_stops initSys
  exact ⟨h.1, h.2.1 rfl⟩

/-- C8: on a missing download directory — and likewise on an existing but
empty one — a cleanup cycle deletes nothing and returns 0, and both
introspection helpers return 0, none of them failing. -/
theorem cleanup_zero_on_missing_or_empty (d : Dir) (now maxAge : Int)
    (h : d.dirExists = false ∨ (d.listFails = false ∧ d.entries = [])) :
    (cleanup_old_files d now maxAge).1 = 0 ∧
    get_directory_size d = 0 ∧
    get_file_count d = 0 := by
  rcases h with h | ⟨hl, he⟩
  · simp [cleanup_old_files, get_directory_size, get_file_count, h]
  · cases hex : d.dirExists
    · simp [cleanup_old_files, get_directory_size, get_file_count, hex]
    · simp [cleanup_old_files, get_directory_size, get_file_count, hex, hl,
        he, cleanupScan, sizeScan]

/-- Witness for C8: the missing and the empty directory both yield zeros. -/
theorem cleanup_zero_on_missing_or_empty_witness :
    (cleanup_old_files ⟨false, false, [entryA]⟩ 4000 3600).1 = 0 ∧
    get_directory_size ⟨true, false, []⟩ = 0 ∧
    get_file_count ⟨true, false, []⟩ = 0 := by
  have h1 := cleanup_zero_on_missing_or_empty ⟨false, false, [entryA]⟩
    4000 3600 (Or.inl rfl)
  have h2 := cleanup_zero_on_missing_or_empty ⟨true, false, []⟩
    4000 3600 (Or.inr ⟨rfl, rfl⟩)
  exact ⟨h1.1, h2.2.1, h2.2.2⟩

/-- When every file's metadata is readable, the size loop sums the sizes of
exactly the regular files. -/
theorem sizeScan_no_failures (es : List DirEntry)
    (h : ∀ e ∈ es, e.isFile = true → e.statFails = false) :
    sizeScan es = ((es.filter fun e => e.isFile).map fun e => e.size).sum := by
  induction es with
  | nil => rfl
  | cons e es ih =>
    have hes : ∀ x ∈ es, x.isFile = true → x.statFails = false :=
      fun x hx => h x (List.mem_cons_of_mem e hx)
    by_cases hf : e.isFile = false
    · simp [sizeScan, hf, ih hes, List.filter_cons]
    · have hf' : e.isFile = true := by
        cases hef : e.isFile
        · exact absurd hef hf
        · rfl
      have hstat : e.statFails = false := h e (List.mem_cons_self e es) hf'
      simp [sizeScan, hf', hstat, ih hes, List.filter_cons]

/-- C9: on an existing directory whose files have readable metadata,
`get_directory_size` returns the sum of the sizes of the regular files
directly in it (subdirectories ignored) and `get_file_count` the number of
those files; both are pure reads of the listing. -/
theorem directory_size_and_count (es : List DirEntry)
    (h : ∀ e ∈ es, e.isFile = true → e.statFails = false) :
    get_directory_size ⟨true, false, es⟩ =
      ((es.filter fun e => e.isFile).map fun e => e.size).sum ∧
    get_file_count ⟨true, false, es⟩ =
      (es.filter fun e => e.isFile).length := by
  exact ⟨by simp [get_directory_size, sizeScan_no_failures es h], rfl⟩

/-- Witness for C9, the spec scenario: files of 10, 20 and 30 bytes give
size 60 and count 3. -/
theorem directory_size_and_count_witness :
    get_directory_size ⟨true, false, [entry10, entry20, entry30]⟩ = 60 ∧
    get_file_count ⟨true, false, [entry10, entry20, entry30]⟩ = 3 := by
  have h := directory_size_and_count [entry10, entry20, entry30] (by decide)
  constructor
  · rw [h.1]
    decide
  · rw [h.2]
    decide

/-- C10: `download_video` is total at its interface — every branch returns
a dict with a boolean `success` key and the two `except` clauses stop any
exception from escaping. An empty or non-string url yields
`success = False` with an error message; a `DownloadError` yields
`success = False` with the collaborator's message; any other exception
yields `success = False`; and `success = True`, with the `filename`,
`filepath` and `title` keys, happens only when the collaborator completed
the download. -/
theorem download_video_contract (url : UrlArg) (formatId : String)
    (collab : String → String → DlOutcome) :
    (url = UrlArg.nonString ∨ url = UrlArg.pyStr "" →
      download_video url formatId collab =
        ⟨false, some "URL inválida", none, none, none⟩) ∧
    (∀ s m, url = UrlArg.pyStr s → s ≠ "" →
      collab s formatId = DlOutcome.downloadError m →
      download_video url formatId collab =
        ⟨false, some ("Error al descargar el video: " ++ m),
          none, none, none⟩) ∧
    (∀ s m, url = UrlArg.pyStr s → s ≠ "" →
      collab s formatId = DlOutcome.otherError m →
      download_video url formatId collab =
        ⟨false, some ("Error inesperado: " ++ m), none, none, none⟩) ∧
    (∀ s t f, url = UrlArg.pyStr s → s ≠ "" →
      collab s formatId = DlOutcome.ok t f →
      download_video url formatId collab =
        ⟨true, none, some (pyBasename f), some f,
          some (t.getD "Sin título")⟩) ∧
    ((download_video url formatId collab).success = true →
      ∃ s t f, url = UrlArg.pyStr s ∧ s ≠ "" ∧
        collab s formatId = DlOutcome.ok t f) := by
  refine ⟨?_, ?_, ?_, ?_, ?_⟩
  · rintro (rfl | rfl) <;> simp [download_video]
  · intro s m hu hs hc
    subst hu
    simp [download_video, hs, hc]
  · intro s m hu hs hc
    subst hu
    simp [download_video, hs, hc]
  · intro s t f hu hs hc
    subst hu
    simp [download_video, hs, hc]
  · cases url with
    | nonString => simp [download_video]
    | pyStr s =>
      by_cases hs : s = ""
      · simp [download_video, hs]
      · cases hc : collab s formatId with
        | ok t f => exact fun _ => ⟨s, t, f, rfl, hs, hc⟩
        | downloadError m => simp [download_video, hs, hc]
        | otherError m => simp [download_video, hs, hc]

/-- Witness for C10: a completing collaborator yields the success dict with
the basename, full path and title; a non-string url yields the validation
failure dict. -/
theorem download_video_contract_witness :
    download_video (UrlArg.pyStr "u") "best" okCollab =
      ⟨true, none, some "v.mp4", some "/d/v.mp4", some "T"⟩ ∧
    download_video UrlArg.nonString "best" okCollab =
      ⟨false, some "URL inválida", none, none, none⟩ := by
  have h := download_video_contract (UrlArg.pyStr "u") "best" okCollab
  have h2 := download_video_contract UrlArg.nonString "best" okCollab
  constructor
  · have hok := h.2.2.2.1 "u" (some "T") "/d/v.mp4" rfl (by decide) rfl
    exact hok.trans (by decide)
  · exact h2.1 (Or.inl rfl)

end YTDL
